import Mathlib

/-!
Shallow embedding of the Personal Notes service
(`src/packages/api/src/router/note.ts` and `src/packages/db/src/schema.ts`).

The database is modelled as explicit state: a list of user records (the
User Directory) and a list of note records (the Note Store) in insertion
order.  Each tRPC procedure becomes a Lean function from the current
database state and the authenticated actor's id to an `Except` result;
mutations also return the new database state.  Timestamps are `Nat`,
generated ids and `now` are passed in explicitly.
-/

namespace NotesApp

/-- A row of the `user` table (auth schema plus the RBAC `role` column). -/
structure UserRec where
  id : String
  name : String
  email : String
  role : String
  image : String
  deriving Repr, DecidableEq

/-- A row of the `note` table (schema.ts, `Note`). -/
structure NoteRec where
  id : String
  title : String
  content : String
  userId : String
  isPublic : Bool
  createdAt : Nat
  updatedAt : Option Nat
  deriving Repr, DecidableEq

/-- The persistent store: users (directory) and notes, in insertion order. -/
structure DB where
  users : List UserRec
  notes : List NoteRec
  deriving Repr, DecidableEq

/-- tRPC error codes thrown by the note router.  Zod input-validation
failures surface as `BAD_REQUEST` (the spec's `ValidationError`). -/
inductive ErrCode where
  | FORBIDDEN
  | NOT_FOUND
  | BAD_REQUEST
  deriving Repr, DecidableEq

instance exceptDecEq {ε α : Type} [DecidableEq ε] [DecidableEq α] :
    DecidableEq (Except ε α) := fun a b =>
  match a, b with
  | .ok x, .ok y =>
      if h : x = y then .isTrue (by rw [h])
      else .isFalse (by intro hc; cases hc; exact h rfl)
  | .error x, .error y =>
      if h : x = y then .isTrue (by rw [h])
      else .isFalse (by intro hc; cases hc; exact h rfl)
  | .ok _, .error _ => .isFalse (by intro hc; cases hc)
  | .error _, .ok _ => .isFalse (by intro hc; cases hc)

/-- `ctx.db.query.user.findFirst({where: eq(user.id, uid)})`. -/
def findUser (db : DB) (uid : String) : Option UserRec :=
  db.users.find? (fun u => u.id == uid)

/-- `ctx.db.query.Note.findFirst({where: eq(Note.id, nid)})`. -/
def findNote (db : DB) (nid : String) : Option NoteRec :=
  db.notes.find? (fun n => n.id == nid)

/-- Insert one note into a list kept sorted by `createdAt` descending;
an incoming element goes before the first element that is not newer,
which keeps the underlying order stable on ties. -/
def insertDesc (x : NoteRec) : List NoteRec → List NoteRec
  | [] => [x]
  | y :: ys => if y.createdAt ≤ x.createdAt then x :: y :: ys else y :: insertDesc x ys

/-- `orderBy: desc(Note.createdAt)` — stable sort, newest first. -/
def sortDesc : List NoteRec → List NoteRec
  | [] => []
  | x :: xs => insertDesc x (sortDesc xs)

/-- Newest-first comparison used to state sortedness of listings. -/
def NewerEq (a b : NoteRec) : Prop := b.createdAt ≤ a.createdAt

theorem insertDesc_perm (x : NoteRec) (l : List NoteRec) :
    List.Perm (insertDesc x l) (x :: l) := by
  induction l with
  | nil => simp [insertDesc]
  | cons y ys ih =>
    by_cases h : y.createdAt ≤ x.createdAt
    · simp [insertDesc, h]
    · simp only [insertDesc, if_neg h]
      exact (ih.cons y).trans (List.Perm.swap x y ys)

theorem sortDesc_perm (l : List NoteRec) : List.Perm (sortDesc l) l := by
  induction l with
  | nil => simp [sortDesc]
  | cons x xs ih =>
    exact (insertDesc_perm x (sortDesc xs)).trans (ih.cons x)

theorem mem_insertDesc {a x : NoteRec} {l : List NoteRec}
    (h : a ∈ insertDesc x l) : a = x ∨ a ∈ l := by
  have := (insertDesc_perm x l).mem_iff.mp h
  simpa using this

theorem insertDesc_sorted (x : NoteRec) (l : List NoteRec)
    (hl : l.Pairwise NewerEq) : (insertDesc x l).Pairwise NewerEq := by
  induction l with
  | nil => simp [insertDesc, List.Pairwise]
  | cons y ys ih =>
    rcases List.pairwise_cons.mp hl with ⟨hy, hys⟩
    by_cases h : y.createdAt ≤ x.createdAt
    · simp only [insertDesc, if_pos h]
      refine List.pairwise_cons.mpr ⟨?_, hl⟩
      intro b hb
      rcases List.mem_cons.mp hb with hb | hb
      · subst hb; exact h
      · exact Nat.le_trans (hy b hb) h
    · simp only [insertDesc, if_neg h]
      refine List.pairwise_cons.mpr ⟨?_, ih hys⟩
      intro b hb
      rcases mem_insertDesc hb with hb | hb
      · subst hb; exact Nat.le_of_lt (Nat.lt_of_not_le h)
      · exact hy b hb

theorem sortDesc_sorted (l : List NoteRec) : (sortDesc l).Pairwise NewerEq := by
  induction l with
  | nil => simp [sortDesc, List.Pairwise]
  | cons x xs ih => exact insertDesc_sorted x (sortDesc xs) ih

theorem mem_sortDesc {a : NoteRec} {l : List NoteRec} :
    a ∈ sortDesc l ↔ a ∈ l := (sortDesc_perm l).mem_iff

/-- Owner columns selected by `all` and `byId`
(`columns: {id, name, role, image}`). -/
structure OwnerCols where
  id : String
  name : String
  role : String
  image : String
  deriving Repr, DecidableEq

/-- Owner columns selected by `adminAll`
(`columns: {id, name, email, role, image}`). -/
structure AdminOwnerCols where
  id : String
  name : String
  email : String
  role : String
  image : String
  deriving Repr, DecidableEq

def ownerColsOf (u : UserRec) : OwnerCols :=
  { id := u.id, name := u.name, role := u.role, image := u.image }

def adminOwnerColsOf (u : UserRec) : AdminOwnerCols :=
  { id := u.id, name := u.name, email := u.email, role := u.role, image := u.image }

/-- The `with: {user: ...}` relation join used by `all` and `byId`. -/
def withOwner (db : DB) (n : NoteRec) : NoteRec × Option OwnerCols :=
  (n, (findUser db n.userId).map ownerColsOf)

/-- The `with: {user: ...}` relation join used by `adminAll`. -/
def withAdminOwner (db : DB) (n : NoteRec) : NoteRec × Option AdminOwnerCols :=
  (n, (findUser db n.userId).map adminOwnerColsOf)

/-- The `requireRole` middleware: looks the actor's role up in the `user`
table afresh on the call and rejects with `FORBIDDEN` unless the role is
in the allowed list. -/
def requireRole (allowedRoles : List String) (db : DB) (actorId : String) :
    Except ErrCode String :=
  match findUser db actorId with
  | none => .error .FORBIDDEN
  | some userRecord =>
      if allowedRoles.contains userRecord.role then .ok userRecord.role
      else .error .FORBIDDEN

/-- `note.all`: own notes plus public notes of others, newest first,
each joined with the owner's public columns. -/
def allNotes (db : DB) (actorId : String) : List (NoteRec × Option OwnerCols) :=
  (sortDesc (db.notes.filter (fun n => n.userId == actorId || n.isPublic))).map
    (withOwner db)

/-- `note.myNotes`: own notes only, newest first. -/
def myNotes (db : DB) (actorId : String) : List NoteRec :=
  sortDesc (db.notes.filter (fun n => n.userId == actorId))

/-- `note.byId`: single read with the visibility condition folded into
the query; a private note of another owner is indistinguishable from an
absent one (`NOT_FOUND`). -/
def byId (db : DB) (actorId : String) (nid : String) :
    Except ErrCode (NoteRec × Option OwnerCols) :=
  match db.notes.find? (fun n => n.id == nid && (n.userId == actorId || n.isPublic)) with
  | none => .error .NOT_FOUND
  | some note => .ok (withOwner db note)

/-- The raw JSON body a client may send to `note.create`.  A spoofed
`userId` key is representable here; `CreateNoteSchema` (a zod object that
omits `id`, `userId`, `createdAt`, `updatedAt`) strips it during parsing. -/
structure RawCreateInput where
  title : String
  content : String
  isPublic : Option Bool
  userId : Option String
  deriving Repr, DecidableEq

/-- The parsed value of `CreateNoteSchema`: `title` and `content`
required, optional `isPublic`, no owner field. -/
structure CreateInput where
  title : String
  content : String
  isPublic : Option Bool
  deriving Repr, DecidableEq

/-- `CreateNoteSchema`: `title` min 1 max 256, `content` min 1,
`isPublic` optional; unknown keys (in particular `userId`) are dropped. -/
def parseCreate (r : RawCreateInput) : Except ErrCode CreateInput :=
  if 1 ≤ r.title.length && r.title.length ≤ 256 && 1 ≤ r.content.length then
    .ok { title := r.title, content := r.content, isPublic := r.isPublic }
  else .error .BAD_REQUEST

/-- `note.create`: parse the input, then insert with
`{...input, userId: ctx.session.user.id}`; `isPublic` defaults to
`false` and `createdAt` to `now()` per the column defaults. -/
def create (db : DB) (actorId : String) (r : RawCreateInput)
    (newId : String) (now : Nat) : Except ErrCode (DB × NoteRec) :=
  match parseCreate r with
  | .error e => .error e
  | .ok input =>
      let n : NoteRec :=
        { id := newId, title := input.title, content := input.content,
          userId := actorId, isPublic := input.isPublic.getD false,
          createdAt := now, updatedAt := none }
      .ok ({ db with notes := db.notes ++ [n] }, n)

/-- The parsed value of `UpdateNoteSchema`: every updatable field
optional; `id`, `userId`, `createdAt`, `updatedAt` omitted. -/
structure UpdateData where
  title : Option String
  content : Option String
  isPublic : Option Bool
  deriving Repr, DecidableEq

/-- `UpdateNoteSchema` field checks: a provided `title` is non-empty and
at most 256 chars, a provided `content` is non-empty. -/
def validUpdateData (d : UpdateData) : Bool :=
  (match d.title with | none => true | some t => 1 ≤ t.length && t.length ≤ 256) &&
  (match d.content with | none => true | some c => 1 ≤ c.length)

/-- Drizzle `.set(input.data)` on one row: only provided fields change;
the `$onUpdateFn` column default stamps `updatedAt` with `now()`. -/
def applySet (d : UpdateData) (now : Nat) (n : NoteRec) : NoteRec :=
  { n with
    title := d.title.getD n.title,
    content := d.content.getD n.content,
    isPublic := d.isPublic.getD n.isPublic,
    updatedAt := some now }

/-- `note.update`: validate the input, load the note (`NOT_FOUND` if
absent), check ownership (`FORBIDDEN` if not the actor's), then update
the row and return it. -/
def update (db : DB) (actorId : String) (nid : String) (d : UpdateData)
    (now : Nat) : Except ErrCode (DB × NoteRec) :=
  if !validUpdateData d then .error .BAD_REQUEST
  else
    match findNote db nid with
    | none => .error .NOT_FOUND
    | some note =>
        if note.userId != actorId then .error .FORBIDDEN
        else
          .ok ({ db with
                 notes := db.notes.map (fun m => if m.id == nid then applySet d now m else m) },
               applySet d now note)

/-- `note.delete`: load the note (`NOT_FOUND` if absent), check
ownership (`FORBIDDEN` if not the actor's), then delete the row. -/
def deleteNote (db : DB) (actorId : String) (nid : String) :
    Except ErrCode DB :=
  match findNote db nid with
  | none => .error .NOT_FOUND
  | some note =>
      if note.userId != actorId then .error .FORBIDDEN
      else .ok { db with notes := db.notes.filter (fun n => !(n.id == nid)) }

/-- `note.adminAll`: `requireRole(["admin"])`, then every note, newest
first, joined with the owner columns `{id, name, email, role, image}`. -/
def adminAll (db : DB) (actorId : String) :
    Except ErrCode (List (NoteRec × Option AdminOwnerCols)) :=
  match requireRole ["admin"] db actorId with
  | .error e => .error e
  | .ok _ => .ok ((sortDesc db.notes).map (withAdminOwner db))

/-- `note.adminDelete`: `requireRole(["admin"])`, load the note
(`NOT_FOUND` if absent), then delete it regardless of ownership. -/
def adminDelete (db : DB) (actorId : String) (nid : String) :
    Except ErrCode DB :=
  match requireRole ["admin"] db actorId with
  | .error e => .error e
  | .ok _ =>
      match findNote db nid with
      | none => .error .NOT_FOUND
      | some _ => .ok { db with notes := db.notes.filter (fun n => !(n.id == nid)) }

/-! Concrete fixtures used by witnesses. -/

def alice : UserRec :=
  { id := "alice", name := "Alice", email := "alice@example.com",
    role := "user", image := "a.png" }

def bob : UserRec :=
  { id := "bob", name := "Bob", email := "bob@example.com",
    role := "admin", image := "b.png" }

def note1 : NoteRec :=
  { id := "n1", title := "Public Post", content := "hi", userId := "alice",
    isPublic := true, createdAt := 10, updatedAt := none }

def note2 : NoteRec :=
  { id := "n2", title := "Secret", content := "shh", userId := "alice",
    isPublic := false, createdAt := 20, updatedAt := none }

def db0 : DB := { users := [alice, bob], notes := [note1, note2] }

/-- C1: for any authenticated actor — whatever the actor's directory
role, admin included — `update` and `delete` on an existing note owned
by someone else both fail with `FORBIDDEN` (not `NOT_FOUND`): the
ownership check admits no role bypass. -/
theorem update_delete_ownership (db : DB) (u : UserRec) (_hu : u ∈ db.users)
    (nid : String) (n : NoteRec) (hn : findNote db nid = some n)
    (hown : n.userId ≠ u.id) (d : UpdateData) (hd : validUpdateData d = true)
    (now : Nat) :
    update db u.id nid d now = .error .FORBIDDEN ∧
    deleteNote db u.id nid = .error .FORBIDDEN := by
  constructor
  · simp [update, hd, hn, bne_iff_ne, hown]
  · simp [deleteNote, hn, bne_iff_ne, hown]

theorem update_delete_ownership_witness :
    update db0 bob.id "n2" ⟨some "x", none, none⟩ 30 = .error .FORBIDDEN ∧
    deleteNote db0 bob.id "n2" = .error .FORBIDDEN :=
  update_delete_ownership db0 bob (by decide) "n2" note2 (by decide)
    (by decide) ⟨some "x", none, none⟩ (by decide) 30

/-- C2: whatever raw input the client sends — any spoofed `userId`
value included — a successful `create` stores a note whose `userId` is
the actor's id, appended to the store. -/
theorem create_forces_owner (db : DB) (actorId : String) (r : RawCreateInput)
    (newId : String) (now : Nat) (db' : DB) (n : NoteRec)
    (h : create db actorId r newId now = .ok (db', n)) :
    n.userId = actorId ∧ db'.notes = db.notes ++ [n] := by
  unfold create at h
  cases hp : parseCreate r with
  | error e => rw [hp] at h; cases h
  | ok input =>
      rw [hp] at h
      cases h
      exact ⟨rfl, rfl⟩

theorem create_forces_owner_witness :
    ∃ db' n, create db0 "bob" ⟨"t", "c", none, some "alice"⟩ "n3" 30 = .ok (db', n) ∧
      n.userId = "bob" ∧ db'.notes = db0.notes ++ [n] := by
  refine ⟨_, _, rfl, ?_⟩
  exact create_forces_owner db0 "bob" ⟨"t", "c", none, some "alice"⟩ "n3" 30 _ _ rfl

/-- C4: `byId` succeeds exactly when a note with the requested id exists
and is owned by the actor or public; every failure is `NOT_FOUND`, so a
private note of another owner is indistinguishable from an absent one. -/
theorem byId_policy (db : DB) (actorId nid : String) :
    ((∃ r, byId db actorId nid = .ok r) ↔
      ∃ n ∈ db.notes, n.id = nid ∧ (n.userId = actorId ∨ n.isPublic = true)) ∧
    (∀ e, byId db actorId nid = .error e → e = .NOT_FOUND) := by
  constructor
  · constructor
    · rintro ⟨r, hr⟩
      unfold byId at hr
      cases hf : db.notes.find? (fun n => n.id == nid && (n.userId == actorId || n.isPublic)) with
      | none => rw [hf] at hr; cases hr
      | some note =>
          have hmem := List.mem_of_find?_eq_some hf
          have hp := List.find?_some hf
          simp only [Bool.and_eq_true, beq_iff_eq, Bool.or_eq_true] at hp
          exact ⟨note, hmem, hp.1, hp.2⟩
    · rintro ⟨n, hmem, hid, hvis⟩
      unfold byId
      cases hf : db.notes.find? (fun n => n.id == nid && (n.userId == actorId || n.isPublic)) with
      | none =>
          exfalso
          have := List.find?_eq_none.mp hf n hmem
          simp only [Bool.and_eq_true, beq_iff_eq, Bool.or_eq_true] at this
          exact this ⟨hid, hvis⟩
      | some note => exact ⟨_, rfl⟩
  · intro e he
    unfold byId at he
    cases hf : db.notes.find? (fun n => n.id == nid && (n.userId == actorId || n.isPublic)) with
    | none => rw [hf] at he; cases he; rfl
    | some note => rw [hf] at he; cases he

theorem byId_policy_witness :
    ∃ r, byId db0 "alice" "n2" = .ok r :=
  (byId_policy db0 "alice" "n2").1.mpr ⟨note2, by decide, by decide, by decide⟩

theorem contains_admin (s : String) :
    ((["admin"] : List String).contains s) = (s == "admin") := by
  cases h : s == "admin" <;> simp [List.contains, List.elem, h]

theorem requireRole_admin_ok {db : DB} {uid : String} {u : UserRec}
    (hu : findUser db uid = some u) (hr : u.role = "admin") :
    requireRole ["admin"] db uid = .ok u.role := by
  simp [requireRole, hu, contains_admin, hr]

theorem requireRole_not_admin {db : DB} {uid : String}
    (h : ∀ u, findUser db uid = some u → u.role ≠ "admin") :
    requireRole ["admin"] db uid = .error .FORBIDDEN := by
  unfold requireRole
  cases hf : findUser db uid with
  | none => rfl
  | some u =>
      have hne := h u hf
      simp [contains_admin, beq_iff_eq, hne]

/-- C3: the role consulted by a privileged call is the one in the
directory at that very call.  If an earlier directory state granted the
actor `admin` (so `adminAll` succeeded then), but the current state does
not, the current `adminAll` and `adminDelete` both fail `FORBIDDEN`. -/
theorem privileged_role_fresh (earlier current : DB) (uid nid : String)
    (u₁ : UserRec) (h₁ : findUser earlier uid = some u₁) (hadm : u₁.role = "admin")
    (h₂ : ∀ u, findUser current uid = some u → u.role ≠ "admin") :
    (∃ l, adminAll earlier uid = .ok l) ∧
    adminAll current uid = .error .FORBIDDEN ∧
    adminDelete current uid nid = .error .FORBIDDEN := by
  refine ⟨?_, ?_, ?_⟩
  · refine ⟨(sortDesc earlier.notes).map (withAdminOwner earlier), ?_⟩
    simp [adminAll, requireRole_admin_ok h₁ hadm]
  · simp [adminAll, requireRole_not_admin h₂]
  · simp [adminDelete, requireRole_not_admin h₂]

theorem privileged_role_fresh_witness :
    (∃ l, adminAll db0 bob.id = .ok l) ∧
    adminAll { db0 with users := [alice, { bob with role := "user" }] } bob.id
      = .error .FORBIDDEN ∧
    adminDelete { db0 with users := [alice, { bob with role := "user" }] } bob.id "n1"
      = .error .FORBIDDEN :=
  privileged_role_fresh db0 _ bob.id "n1" bob (by decide) (by decide)
    (by decide)

/-- C6: for every authenticated actor, whatever the actor's role, `all`
returns exactly the notes that are the actor's own or public, newest
first by `createdAt`. -/
theorem allNotes_policy (db : DB) (actorId : String) :
    (∀ n : NoteRec, n ∈ (allNotes db actorId).map Prod.fst ↔
      n ∈ db.notes ∧ (n.userId = actorId ∨ n.isPublic = true)) ∧
    ((allNotes db actorId).map Prod.fst).Pairwise NewerEq := by
  have hmap : (allNotes db actorId).map Prod.fst
      = sortDesc (db.notes.filter (fun n => n.userId == actorId || n.isPublic)) := by
    simp [allNotes, withOwner, Function.comp_def]
  constructor
  · intro n
    rw [hmap, mem_sortDesc, List.mem_filter]
    simp
  · rw [hmap]
    exact sortDesc_sorted _

theorem allNotes_policy_witness :
    note1 ∈ (allNotes db0 "bob").map Prod.fst :=
  ((allNotes_policy db0 "bob").1 note1).mpr ⟨by decide, by decide⟩

/-- C7: `adminDelete` succeeds exactly when the actor's directory role
is `admin` and the note exists; a non-admin gets `FORBIDDEN`, an admin
on an absent note gets `NOT_FOUND`, and on success the note is removed
whoever owns it. -/
theorem adminDelete_spec (db : DB) (uid nid : String) :
    ((∃ db', adminDelete db uid nid = .ok db') ↔
      ((∃ u, findUser db uid = some u ∧ u.role = "admin") ∧
        ∃ n, findNote db nid = some n)) ∧
    ((∀ u, findUser db uid = some u → u.role ≠ "admin") →
      adminDelete db uid nid = .error .FORBIDDEN) ∧
    (∀ u, findUser db uid = some u → u.role = "admin" → findNote db nid = none →
      adminDelete db uid nid = .error .NOT_FOUND) ∧
    (∀ db', adminDelete db uid nid = .ok db' →
      db'.notes = db.notes.filter (fun n => !(n.id == nid))) := by
  refine ⟨⟨?_, ?_⟩, ?_, ?_, ?_⟩
  · rintro ⟨db', hdb'⟩
    unfold adminDelete at hdb'
    cases hreq : requireRole ["admin"] db uid with
    | error e => rw [hreq] at hdb'; cases hdb'
    | ok r =>
        constructor
        · unfold requireRole at hreq
          cases hf : findUser db uid with
          | none => rw [hf] at hreq; cases hreq
          | some u =>
              rw [hf] at hreq
              simp only [contains_admin] at hreq
              by_cases hc : u.role = "admin"
              · exact ⟨u, rfl, hc⟩
              · have hb : (u.role == "admin") = false := beq_eq_false_iff_ne.mpr hc
                rw [hb] at hreq
                simp at hreq
        · rw [hreq] at hdb'
          cases hn : findNote db nid with
          | none => rw [hn] at hdb'; cases hdb'
          | some n => exact ⟨n, rfl⟩
  · rintro ⟨⟨u, hu, hr⟩, n, hn⟩
    refine ⟨{ db with notes := db.notes.filter (fun n => !(n.id == nid)) }, ?_⟩
    simp [adminDelete, requireRole_admin_ok hu hr, hn]
  · intro h
    simp [adminDelete, requireRole_not_admin h]
  · intro u hu hr hn
    simp [adminDelete, requireRole_admin_ok hu hr, hn]
  · intro db' hdb'
    unfold adminDelete at hdb'
    cases hreq : requireRole ["admin"] db uid with
    | error e => rw [hreq] at hdb'; cases hdb'
    | ok r =>
        rw [hreq] at hdb'
        cases hn : findNote db nid with
        | none => rw [hn] at hdb'; cases hdb'
        | some n => rw [hn] at hdb'; cases hdb'; rfl

theorem adminDelete_spec_witness :
    ∃ db', adminDelete db0 bob.id "n2" = .ok db' :=
  (adminDelete_spec db0 bob.id "n2").1.mpr
    ⟨⟨bob, by decide, by decide⟩, note2, by decide⟩

/-- `db0` with the owner of both notes keeping the same public profile
fields (id, name, role, image) but a different email. -/
def aliceAlt : UserRec := { alice with email := "changed@example.com" }

def db0Alt : DB := { users := [aliceAlt, bob], notes := [note1, note2] }

/-- C5 counterexample: the `adminAll` annotation is NOT limited to the
owner's public profile fields.  Two stores with identical notes whose
directories agree on every user's id, name, role and image — differing
only in the owner's email — produce different `adminAll` results, so
the owner's email is part of the annotation (`adminAll` selects
`columns: {id, name, email, role, image}`). -/
theorem adminAll_email_leak :
    db0Alt.notes = db0.notes ∧
    db0Alt.users.map ownerColsOf = db0.users.map ownerColsOf ∧
    adminAll db0Alt bob.id ≠ adminAll db0 bob.id := by decide

/-- C5 (amended): `adminAll`, when the actor's directory role is
`admin`, returns every note in the store (private ones of all owners
included), newest first, each annotated with the owner's columns id,
name, email, role and image — the owner's email IS included. -/
theorem adminAll_spec (db : DB) (uid : String) (u : UserRec)
    (hu : findUser db uid = some u) (hr : u.role = "admin") :
    ∃ l, adminAll db uid = .ok l ∧
      List.Perm (l.map Prod.fst) db.notes ∧
      (l.map Prod.fst).Pairwise NewerEq ∧
      ∀ p ∈ l, p.2 = (findUser db p.1.userId).map adminOwnerColsOf := by
  have hfst : ((sortDesc db.notes).map (withAdminOwner db)).map Prod.fst
      = sortDesc db.notes := by
    simp [withAdminOwner, Function.comp_def]
  refine ⟨(sortDesc db.notes).map (withAdminOwner db), ?_, ?_, ?_, ?_⟩
  · simp [adminAll, requireRole_admin_ok hu hr]
  · rw [hfst]; exact sortDesc_perm _
  · rw [hfst]; exact sortDesc_sorted _
  · intro p hp
    rcases List.mem_map.mp hp with ⟨n, _, rfl⟩
    rfl

theorem adminAll_spec_witness :
    ∃ l, adminAll db0 bob.id = .ok l ∧
      List.Perm (l.map Prod.fst) db0.notes ∧
      (l.map Prod.fst).Pairwise NewerEq ∧
      ∀ p ∈ l, p.2 = (findUser db0 p.1.userId).map adminOwnerColsOf :=
  adminAll_spec db0 bob.id bob (by decide) (by decide)

/-- C8: `create` fails `BAD_REQUEST` (the zod `ValidationError`) exactly
when the title is empty, the title exceeds 256 characters, or the
content is empty; otherwise it appends a note owned by the actor and
returns the created record. -/
theorem create_validation (db : DB) (actorId : String) (r : RawCreateInput)
    (newId : String) (now : Nat) :
    (create db actorId r newId now = .error .BAD_REQUEST ↔
      (r.title.length = 0 ∨ r.title.length > 256 ∨ r.content.length = 0)) ∧
    (¬(r.title.length = 0 ∨ r.title.length > 256 ∨ r.content.length = 0) →
      ∃ n, create db actorId r newId now =
          .ok ({ db with notes := db.notes ++ [n] }, n) ∧ n.userId = actorId) := by
  constructor
  · unfold create parseCreate
    by_cases h : (1 ≤ r.title.length && r.title.length ≤ 256 && 1 ≤ r.content.length : Bool)
    · rw [if_pos h]
      simp only [Bool.and_eq_true, decide_eq_true_eq] at h
      constructor
      · intro hc; cases hc
      · intro hd; exfalso; omega
    · rw [if_neg h]
      simp only [Bool.and_eq_true, decide_eq_true_eq, not_and_or, Nat.not_le] at h
      constructor
      · intro _; omega
      · intro _; rfl
  · intro hv
    push_neg at hv
    have hb : (1 ≤ r.title.length && r.title.length ≤ 256 && 1 ≤ r.content.length) = true := by
      simp only [Bool.and_eq_true, decide_eq_true_eq]
      omega
    refine ⟨{ id := newId, title := r.title, content := r.content, userId := actorId,
              isPublic := r.isPublic.getD false, createdAt := now, updatedAt := none },
            ?_, rfl⟩
    unfold create parseCreate
    rw [if_pos hb]

theorem create_validation_witness :
    (create db0 "bob" ⟨"", "x", none, none⟩ "n3" 30 = .error .BAD_REQUEST) ∧
    ∃ n, create db0 "bob" ⟨"t", "c", none, none⟩ "n3" 30 =
        .ok ({ db0 with notes := db0.notes ++ [n] }, n) ∧ n.userId = "bob" :=
  ⟨(create_validation db0 "bob" ⟨"", "x", none, none⟩ "n3" 30).1.mpr (by decide),
   (create_validation db0 "bob" ⟨"t", "c", none, none⟩ "n3" 30).2 (by decide)⟩

/-- C9: a successful `update` changes only the supplied fields plus
`updatedAt`; `id`, `userId` (the owner) and `createdAt` are unchanged,
and a field that was not supplied keeps its previous value. -/
theorem update_frame (db : DB) (actorId nid : String) (d : UpdateData) (now : Nat)
    (n : NoteRec) (hn : findNote db nid = some n)
    (db' : DB) (n' : NoteRec)
    (h : update db actorId nid d now = .ok (db', n')) :
    n'.id = n.id ∧ n'.userId = n.userId ∧ n'.createdAt = n.createdAt ∧
    n'.updatedAt = some now ∧
    (∀ t, d.title = some t → n'.title = t) ∧
    (d.title = none → n'.title = n.title) ∧
    (∀ c, d.content = some c → n'.content = c) ∧
    (d.content = none → n'.content = n.content) ∧
    (∀ b, d.isPublic = some b → n'.isPublic = b) ∧
    (d.isPublic = none → n'.isPublic = n.isPublic) := by
  unfold update at h
  cases hv : validUpdateData d with
  | false => rw [hv] at h; simp at h
  | true =>
      rw [hv] at h
      simp only [Bool.not_true, Bool.false_eq_true, if_false, hn] at h
      cases hb : n.userId != actorId with
      | true => rw [hb] at h; simp at h
      | false =>
          rw [hb] at h
          simp only [Bool.false_eq_true, if_false, Except.ok.injEq, Prod.mk.injEq] at h
          have hn' : n' = applySet d now n := h.2.symm
          subst hn'
          refine ⟨rfl, rfl, rfl, rfl, ?_, ?_, ?_, ?_, ?_, ?_⟩
          · intro t ht; simp [applySet, ht]
          · intro ht; simp [applySet, ht]
          · intro c hc; simp [applySet, hc]
          · intro hc; simp [applySet, hc]
          · intro b hbp; simp [applySet, hbp]
          · intro hbp; simp [applySet, hbp]

theorem update_frame_witness :
    ∃ db' n', update db0 "alice" "n2" ⟨some "New", none, none⟩ 30 = .ok (db', n') ∧
      n'.id = note2.id ∧ n'.userId = note2.userId ∧ n'.createdAt = note2.createdAt ∧
      n'.updatedAt = some 30 ∧ n'.title = "New" ∧ n'.content = note2.content := by
  refine ⟨_, _, rfl, ?_⟩
  have h := update_frame db0 "alice" "n2" ⟨some "New", none, none⟩ 30 note2
    (by decide) _ _ rfl
  exact ⟨h.1, h.2.1, h.2.2.1, h.2.2.2.1, h.2.2.2.2.1 "New" rfl, h.2.2.2.2.2.2.2.1 rfl⟩

/-- The store after a request to `note.update`: the handler's single
write runs only when no error was thrown. -/
def updateRun (db : DB) (actorId nid : String) (d : UpdateData) (now : Nat) : DB :=
  match update db actorId nid d now with
  | .ok (db', _) => db'
  | .error _ => db

/-- The store after a request to `note.delete`. -/
def deleteRun (db : DB) (actorId nid : String) : DB :=
  match deleteNote db actorId nid with
  | .ok db' => db'
  | .error _ => db

/-- The store after a request to `note.adminDelete`. -/
def adminDeleteRun (db : DB) (actorId nid : String) : DB :=
  match adminDelete db actorId nid with
  | .ok db' => db'
  | .error _ => db

/-- C10: every existence and authorization check precedes the single
write, so a `update`, `delete` or `adminDelete` call that fails — with
`NOT_FOUND`, `FORBIDDEN`, or any other error — leaves the store exactly
as it was. -/
theorem failed_mutation_no_effect (db : DB) (actorId nid : String)
    (d : UpdateData) (now : Nat) (e : ErrCode) :
    (update db actorId nid d now = .error e →
      updateRun db actorId nid d now = db) ∧
    (deleteNote db actorId nid = .error e → deleteRun db actorId nid = db) ∧
    (adminDelete db actorId nid = .error e → adminDeleteRun db actorId nid = db) := by
  refine ⟨?_, ?_, ?_⟩
  · intro h; unfold updateRun; rw [h]
  · intro h; unfold deleteRun; rw [h]
  · intro h; unfold adminDeleteRun; rw [h]

theorem failed_mutation_no_effect_witness :
    updateRun db0 "bob" "n2" ⟨some "x", none, none⟩ 30 = db0 ∧
    deleteRun db0 "bob" "n2" = db0 ∧
    adminDeleteRun db0 "carol" "n2" = db0 :=
  ⟨(failed_mutation_no_effect db0 "bob" "n2" ⟨some "x", none, none⟩ 30 .FORBIDDEN).1
      (by decide),
   (failed_mutation_no_effect db0 "bob" "n2" ⟨some "x", none, none⟩ 30 .FORBIDDEN).2.1
      (by decide),
   (failed_mutation_no_effect db0 "carol" "n2" ⟨some "x", none, none⟩ 30 .FORBIDDEN).2.2
      (by decide)⟩

end NotesApp
